import Mathlib

/-!
Verification of the secret-store character device in
ch12/miscdrv_rdwr/miscdrv_rdwr.c.

The driver keeps a single context structure (struct drv_ctx) holding
statistics counters, config words and a 128-byte secret buffer.  The four
methods open_miscdrv_rdwr, read_miscdrv_rdwr, write_miscdrv_rdwr and
close_miscdrv_rdwr are embedded below as pure functions on an explicit
state.  The outcome of the fallible kernel services (kvmalloc,
copy_from_user, copy_to_user) is passed in as an explicit boolean oracle,
since the C code only branches on success or failure of each call.

Counters tx, rx, ga, gb are C ints; signed overflow is undefined behaviour
in C, so the model uses unbounded Int and all statements are about the
defined-behaviour range.  The byte count of a write(2) call is capped by
the VFS at MAX_RW_COUNT (below 2^31), so the int conversion in
`int ret = count` is the identity and `count` is modelled as Nat.
-/

set_option maxRecDepth 10000

/-- MAXBYTES from the source: capacity of the oursecret buffer. -/
def MAXBYTES : Nat := 128

/-- errno value EINVAL (invalid argument). -/
def EINVAL : Int := 22

/-- errno value EFAULT (bad address, boundary-copy failure). -/
def EFAULT : Int := 14

/-- errno value ENOMEM (allocation failure). -/
def ENOMEM : Int := 12

/-- Embedding of the kernel strnlen: the number of bytes before the first
NUL byte, capped at maxlen.  Walks the buffer exactly as the C function
does. -/
def strnlen : List Nat → Nat → Nat
  | _, 0 => 0
  | [], _ + 1 => 0
  | b :: rest, n + 1 => if b = 0 then 0 else 1 + strnlen rest n

/-- Embedding of the effect of the kernel strlcpy(dst, src, size) on the
destination buffer.  The C function computes ret = strlen(src), copies
len = min(ret, size - 1) bytes and writes a NUL at dst[len]; when size is 0
it writes nothing.  At every call site in this driver the source buffer
holds exactly `size` bytes (kbuf is a kvmalloc of count = size bytes, and
the init call passes the 8-byte literal), so strlen(src) seen by the C code
is the index of the first NUL among those `size` bytes when one exists; when
none exists, strlen reads past the buffer but is then at least `size`, so
min(ret, size - 1) = size - 1 regardless of the out-of-bounds bytes.  Hence
the copied length is exactly strnlen src (size - 1) and the effect on dst is
deterministic.  Bytes of dst past the written NUL are left unchanged. -/
def strlcpyEffect (dst src : List Nat) (size : Nat) : List Nat :=
  if size = 0 then dst
  else
    src.take (strnlen src (size - 1)) ++ 0 :: dst.drop (strnlen src (size - 1) + 1)

/-- Embedding of struct drv_ctx.  The oursecret field is the 128-byte
buffer, modelled as a list of byte values whose length is MAXBYTES in every
reachable state. -/
structure drv_ctx where
  tx : Int
  rx : Int
  err : Int
  myword : Int
  config1 : Nat
  config2 : Nat
  config3 : Nat
  oursecret : List Nat
  deriving DecidableEq

/-- Result of read_miscdrv_rdwr: the ssize_t return value, the context
after the call, and the bytes delivered to the user buffer. -/
structure ReadResult where
  ret : Int
  ctx : drv_ctx
  delivered : List Nat
  deriving DecidableEq

/-- Result of write_miscdrv_rdwr: the ssize_t return value, the context
after the call, whether the staging buffer kbuf was allocated, and whether
it was released again. -/
structure WriteResult where
  ret : Int
  ctx : drv_ctx
  allocated : Bool
  freed : Bool
  deriving DecidableEq

/-- Embedding of read_miscdrv_rdwr.  secret_len is computed at entry via
strnlen; a count below MAXBYTES or an empty secret yields -EINVAL, a
copy_to_user failure yields -EFAULT, and on success secret_len bytes of the
secret are delivered and tx is incremented by secret_len. -/
def read_miscdrv_rdwr (ctx : drv_ctx) (count : Nat) (copyToUserOk : Bool) :
    ReadResult :=
  if count < MAXBYTES then
    { ret := -EINVAL, ctx := ctx, delivered := [] }
  else if strnlen ctx.oursecret MAXBYTES = 0 then
    { ret := -EINVAL, ctx := ctx, delivered := [] }
  else if copyToUserOk = false then
    { ret := -EFAULT, ctx := ctx, delivered := [] }
  else
    { ret := (strnlen ctx.oursecret MAXBYTES : Int),
      ctx := { ctx with tx := ctx.tx + (strnlen ctx.oursecret MAXBYTES : Int) },
      delivered := ctx.oursecret.take (strnlen ctx.oursecret MAXBYTES) }

/-- Embedding of write_miscdrv_rdwr.  ubuf is the user source buffer and
count the requested length; kbuf is its first count bytes (the kvmalloc
buffer is zero-filled by memset before copy_from_user, hence the zero
padding when ubuf is shorter).  Note the count > MAXBYTES branch returns
the initial value of ret, which is count itself, not an error code. -/
def write_miscdrv_rdwr (ctx : drv_ctx) (ubuf : List Nat) (count : Nat)
    (allocOk copyFromUserOk : Bool) : WriteResult :=
  if MAXBYTES < count then
    { ret := (count : Int), ctx := ctx, allocated := false, freed := false }
  else if allocOk = false then
    { ret := -ENOMEM, ctx := ctx, allocated := false, freed := false }
  else if copyFromUserOk = false then
    { ret := -EFAULT, ctx := ctx, allocated := true, freed := true }
  else
    { ret := (count : Int),
      ctx := { ctx with
                oursecret := strlcpyEffect ctx.oursecret (ubuf.takeD count 0)
                  (if MAXBYTES < count then MAXBYTES else count),
                rx := ctx.rx + (count : Int) },
      allocated := true, freed := true }

/-- Full driver state: the session counters ga and gb together with the
driver context. -/
structure DriverState where
  ga : Int
  gb : Int
  ctx : drv_ctx
  deriving DecidableEq

/-- Embedding of open_miscdrv_rdwr: increments ga, decrements gb,
returns 0; the driver context is untouched. -/
def open_miscdrv_rdwr (s : DriverState) : Int × DriverState :=
  (0, { s with ga := s.ga + 1, gb := s.gb - 1 })

/-- Embedding of close_miscdrv_rdwr: decrements ga, increments gb,
returns 0; the driver context is untouched. -/
def close_miscdrv_rdwr (s : DriverState) : Int × DriverState :=
  (0, { s with ga := s.ga - 1, gb := s.gb + 1 })

/-- Byte values of the 7-character string initmsg. -/
def initmsg : List Nat := [105, 110, 105, 116, 109, 115, 103]

/-- Embedding of the context initialisation in miscdrv_init: devm_kzalloc
zeroes every field, then strlcpy(ctx->oursecret, "initmsg", 8) installs the
initial secret.  The source of that strlcpy is the NUL-terminated 8-byte
string literal. -/
def miscdrv_init_ctx : drv_ctx :=
  let zeroed : drv_ctx :=
    { tx := 0, rx := 0, err := 0, myword := 0,
      config1 := 0, config2 := 0, config3 := 0,
      oursecret := List.replicate MAXBYTES 0 }
  { zeroed with oursecret := strlcpyEffect zeroed.oursecret (initmsg ++ [0]) 8 }

/-- The driver state right after module load: static int ga, gb = 1, and
the freshly initialised context. -/
def initState : DriverState :=
  { ga := 0, gb := 1, ctx := miscdrv_init_ctx }

/-- One invocation of a driver method, with its arguments and the oracle
for the fallible kernel services. -/
inductive Op where
  | doOpen : Op
  | doClose : Op
  | doRead (count : Nat) (copyToUserOk : Bool) : Op
  | doWrite (ubuf : List Nat) (count : Nat) (allocOk copyFromUserOk : Bool) : Op
  deriving DecidableEq

/-- State transition of one driver method invocation. -/
def step (s : DriverState) : Op → DriverState
  | .doOpen => (open_miscdrv_rdwr s).2
  | .doClose => (close_miscdrv_rdwr s).2
  | .doRead count ok => { s with ctx := (read_miscdrv_rdwr s.ctx count ok).ctx }
  | .doWrite ubuf count aOk cOk =>
      { s with ctx := (write_miscdrv_rdwr s.ctx ubuf count aOk cOk).ctx }

/-- States reachable from the post-init state by any sequence of driver
method invocations. -/
inductive Reachable : DriverState → Prop where
  | init : Reachable initState
  | step (s : DriverState) (op : Op) : Reachable s → Reachable (step s op)

/-- Well-formedness of the secret buffer: full 128-byte capacity and a NUL
terminator strictly inside it, so the logical length read off by strnlen is
at most MAXBYTES - 1. -/
def SecretWF (l : List Nat) : Prop :=
  l.length = MAXBYTES ∧ strnlen l MAXBYTES ≤ MAXBYTES - 1

/-- strnlen never exceeds its maxlen argument. -/
theorem strnlen_le_maxlen (l : List Nat) : ∀ n, strnlen l n ≤ n := by
  induction l with
  | nil => intro n; cases n <;> simp [strnlen]
  | cons b rest ih =>
      intro n
      cases n with
      | zero => simp [strnlen]
      | succ m =>
          simp only [strnlen]
          split
          · omega
          · have := ih m
            omega

/-- strnlen never exceeds the length of the buffer. -/
theorem strnlen_le_length (l : List Nat) : ∀ n, strnlen l n ≤ l.length := by
  induction l with
  | nil => intro n; cases n <;> simp [strnlen]
  | cons b rest ih =>
      intro n
      cases n with
      | zero => simp [strnlen]
      | succ m =>
          simp only [strnlen, List.length_cons]
          split
          · omega
          · have := ih m
            omega

/-- A NUL byte placed after a prefix a bounds strnlen by the length of a. -/
theorem strnlen_append_nul_le (a b : List Nat) : ∀ n,
    strnlen (a ++ 0 :: b) n ≤ a.length := by
  induction a with
  | nil => intro n; cases n <;> simp [strnlen]
  | cons h t ih =>
      intro n
      cases n with
      | zero => simp [strnlen]
      | succ m =>
          simp only [List.cons_append, strnlen, List.length_cons, List.append_eq]
          split
          · omega
          · have h4 := ih m
            simp only [List.append_eq] at h4
            omega

/-- When the prefix a holds no NUL byte and fits strictly below maxlen, the
NUL right after it is exactly where strnlen stops. -/
theorem strnlen_append_nul_eq (a b : List Nat) : ∀ n, (∀ x ∈ a, x ≠ 0) →
    a.length < n → strnlen (a ++ 0 :: b) n = a.length := by
  induction a with
  | nil =>
      intro n _ hn
      cases n with
      | zero => exact absurd hn (Nat.not_lt_zero _)
      | succ m => simp [strnlen]
  | cons h t ih =>
      intro n ha hn
      cases n with
      | zero => exact absurd hn (Nat.not_lt_zero _)
      | succ m =>
          have hh : h ≠ 0 := ha h (by simp)
          have hn2 : t.length < m := by
            simp only [List.length_cons] at hn
            omega
          have h4 := ih m (fun x hx => ha x (by simp [hx])) hn2
          simp only [List.append_eq] at h4
          simp only [List.cons_append, strnlen, if_neg hh, List.length_cons,
            List.append_eq]
          omega

/-- Every byte strictly before the position found by strnlen is nonzero. -/
theorem mem_take_strnlen (l : List Nat) : ∀ n x, x ∈ l.take (strnlen l n) →
    x ≠ 0 := by
  induction l with
  | nil => intro n x hx; simp at hx
  | cons b rest ih =>
      intro n x hx
      cases n with
      | zero => simp [strnlen] at hx
      | succ m =>
          by_cases hb : b = 0
          · simp [strnlen, hb] at hx
          · rw [show strnlen (b :: rest) (m + 1) = strnlen rest m + 1 by
                simp [strnlen, hb]; omega] at hx
            simp only [List.take_succ_cons] at hx
            rcases List.mem_cons.mp hx with h1 | h2
            · subst h1; exact hb
            · exact ih m x h2

/-- If strnlen stops strictly before both maxlen and the end of the buffer,
the buffer decomposes around a NUL byte at that position. -/
theorem strnlen_lt_decomp (l : List Nat) : ∀ n, strnlen l n < n →
    strnlen l n < l.length →
    ∃ a b, l = a ++ 0 :: b ∧ a.length = strnlen l n := by
  induction l with
  | nil => intro n _ h2; simp at h2
  | cons c rest ih =>
      intro n h1 h2
      cases n with
      | zero => omega
      | succ m =>
          by_cases hc : c = 0
          · exact ⟨[], rest, by simp [hc], by simp [strnlen, hc]⟩
          · simp only [strnlen, if_neg hc] at h1 h2 ⊢
            have h2a : strnlen rest m < rest.length := by
              simp only [List.length_cons] at h2
              omega
            obtain ⟨a, b, hab, hlen⟩ := ih m (by omega) h2a
            refine ⟨c :: a, b, by simp [hab], ?_⟩
            simp only [List.length_cons]
            omega

/-- strlcpy with size 0 writes nothing. -/
theorem strlcpyEffect_zero (dst src : List Nat) : strlcpyEffect dst src 0 = dst := by
  simp [strlcpyEffect]

/-- strlcpy with positive size rewrites the destination as the copied
prefix, the terminator, and the untouched tail. -/
theorem strlcpyEffect_pos (dst src : List Nat) (size : Nat) (h : size ≠ 0) :
    strlcpyEffect dst src size =
      src.take (strnlen src (size - 1)) ++
        0 :: dst.drop (strnlen src (size - 1) + 1) := by
  simp [strlcpyEffect, h]

/-- strlcpy preserves the length of a destination at least size long, when
the source holds exactly size bytes. -/
theorem strlcpyEffect_length (dst src : List Nat) (size : Nat)
    (hs : src.length = size) (hd : size ≤ dst.length) :
    (strlcpyEffect dst src size).length = dst.length := by
  rcases Nat.eq_zero_or_pos size with h0 | hpos
  · subst h0; simp [strlcpyEffect]
  · rw [strlcpyEffect_pos dst src size (by omega)]
    have h1 := strnlen_le_maxlen src (size - 1)
    simp only [List.length_append, List.length_take, List.length_cons,
      List.length_drop]
    omega

/-- strlcpy into a well-formed secret buffer keeps it well formed, for any
source of exactly size bytes with size at most MAXBYTES. -/
theorem secretWF_strlcpy (dst src : List Nat) (size : Nat)
    (hs : src.length = size) (hsz : size ≤ MAXBYTES) (hd : SecretWF dst) :
    SecretWF (strlcpyEffect dst src size) := by
  rcases Nat.eq_zero_or_pos size with h0 | hpos
  · subst h0; simpa [strlcpyEffect] using hd
  · obtain ⟨hdl, _⟩ := hd
    constructor
    · rw [strlcpyEffect_length dst src size hs (by omega)]
      exact hdl
    · rw [strlcpyEffect_pos dst src size (by omega)]
      have h1 := strnlen_append_nul_le (src.take (strnlen src (size - 1)))
        (dst.drop (strnlen src (size - 1) + 1)) MAXBYTES
      have h2 := strnlen_le_maxlen src (size - 1)
      have h3 : (src.take (strnlen src (size - 1))).length ≤ size - 1 := by
        simp only [List.length_take]
        omega
      simp only [MAXBYTES] at h1 h3 hsz ⊢
      omega

/-- Each driver method invocation keeps the secret buffer well formed: read
never touches it, write either leaves it alone or commits through strlcpy
with a size of at most MAXBYTES. -/
theorem secretWF_step (s : DriverState) (op : Op)
    (h : SecretWF s.ctx.oursecret) : SecretWF (step s op).ctx.oursecret := by
  cases op with
  | doOpen => exact h
  | doClose => exact h
  | doRead count ok =>
      simp only [step]
      unfold read_miscdrv_rdwr
      split
      · exact h
      · split
        · exact h
        · split
          · exact h
          · exact h
  | doWrite ubuf count aOk cOk =>
      simp only [step]
      unfold write_miscdrv_rdwr
      split
      · exact h
      · split
        · exact h
        · split
          · exact h
          · rename_i h1 _ _
            exact secretWF_strlcpy s.ctx.oursecret (ubuf.takeD count 0) count
              (List.takeD_length count ubuf 0) (by omega) h

/-- The secret buffer is well formed in every reachable state. -/
theorem reachable_secretWF (s : DriverState) (h : Reachable s) :
    SecretWF s.ctx.oursecret := by
  induction h with
  | init => exact ⟨by decide, by decide⟩
  | step s op _ ih => exact secretWF_step s op ih

/-- read never decreases either statistics counter. -/
theorem read_stats_mono (ctx : drv_ctx) (count : Nat) (ok : Bool) :
    ctx.tx ≤ (read_miscdrv_rdwr ctx count ok).ctx.tx ∧
    ctx.rx ≤ (read_miscdrv_rdwr ctx count ok).ctx.rx := by
  unfold read_miscdrv_rdwr
  split
  · exact ⟨le_refl _, le_refl _⟩
  · split
    · exact ⟨le_refl _, le_refl _⟩
    · split
      · exact ⟨le_refl _, le_refl _⟩
      · refine ⟨?_, le_refl _⟩
        simp only
        omega

/-- write never decreases either statistics counter. -/
theorem write_stats_mono (ctx : drv_ctx) (ubuf : List Nat) (count : Nat)
    (aOk cOk : Bool) :
    ctx.tx ≤ (write_miscdrv_rdwr ctx ubuf count aOk cOk).ctx.tx ∧
    ctx.rx ≤ (write_miscdrv_rdwr ctx ubuf count aOk cOk).ctx.rx := by
  unfold write_miscdrv_rdwr
  split
  · exact ⟨le_refl _, le_refl _⟩
  · split
    · exact ⟨le_refl _, le_refl _⟩
    · split
      · exact ⟨le_refl _, le_refl _⟩
      · refine ⟨le_refl _, ?_⟩
        simp only
        omega

/-- Taking exactly the length of the left part of an append returns that
left part. -/
theorem take_append_of_length (a b : List Nat) (n : Nat) (h : a.length = n) :
    (a ++ b).take n = a := by
  subst h
  exact List.take_left a b

/-- C1: the spec claims an oversized Write fails with InvalidArgument.  The
code does leave the context untouched, allocates no staging buffer and
copies nothing, but it returns the initial value of ret, which is count
itself: a positive value, so userspace observes a successful write of count
bytes instead of the error -EINVAL. -/
theorem C1_write_oversized_returns_count (ctx : drv_ctx) (ubuf : List Nat)
    (count : Nat) (aOk cOk : Bool) (h : MAXBYTES < count) :
    write_miscdrv_rdwr ctx ubuf count aOk cOk =
      { ret := (count : Int), ctx := ctx, allocated := false, freed := false } ∧
    (count : Int) ≠ -EINVAL := by
  constructor
  · unfold write_miscdrv_rdwr
    rw [if_pos h]
  · simp only [EINVAL]
    omega

/-- C1 witness: the oversized Write with count 200 returns 200, not an
error, and changes nothing. -/
theorem C1_write_oversized_returns_count_witness :
    MAXBYTES < 200 ∧
    (write_miscdrv_rdwr miscdrv_init_ctx [] 200 true true =
      { ret := ((200 : Nat) : Int), ctx := miscdrv_init_ctx,
        allocated := false, freed := false } ∧
     ((200 : Nat) : Int) ≠ -EINVAL) :=
  ⟨by decide,
   C1_write_oversized_returns_count miscdrv_init_ctx [] 200 true true (by decide)⟩

/-- C2 counterexample: Write of the five bytes of hello followed by Read of
128 bytes delivers only the four bytes hell with tx ending at 4, because
strlcpy with size 5 copies at most 4 bytes before placing the terminator.
The round trip therefore does not return the written payload. -/
theorem C2_roundtrip_counterexample :
    (read_miscdrv_rdwr (write_miscdrv_rdwr miscdrv_init_ctx
        [104, 101, 108, 108, 111] 5 true true).ctx MAXBYTES true).delivered
      = [104, 101, 108, 108] ∧
    (read_miscdrv_rdwr (write_miscdrv_rdwr miscdrv_init_ctx
        [104, 101, 108, 108, 111] 5 true true).ctx MAXBYTES true).delivered
      ≠ [104, 101, 108, 108, 111] ∧
    (read_miscdrv_rdwr (write_miscdrv_rdwr miscdrv_init_ctx
        [104, 101, 108, 108, 111] 5 true true).ctx MAXBYTES true).ret = 4 ∧
    (read_miscdrv_rdwr (write_miscdrv_rdwr miscdrv_init_ctx
        [104, 101, 108, 108, 111] 5 true true).ctx MAXBYTES true).ctx.tx = 4 := by
  decide

/-- C2 amended: a successful Write of payload P with count = len(P),
0 < count ≤ MAXBYTES, followed by a Read with a count of at least MAXBYTES,
returns the strlcpy truncation of P: its first strnlen(P, count - 1) bytes,
that is P up to the first NUL byte and to at most count - 1 bytes; tx grows
by that truncated length.  The Read succeeds when that truncation is
non-empty. -/
theorem C2_roundtrip_truncated (ctx : drv_ctx) (P : List Nat)
    (count count2 : Nat) (hP : P.length = count) (h1 : 1 ≤ count)
    (h2 : count ≤ MAXBYTES) (h3 : MAXBYTES ≤ count2)
    (hpos : 0 < strnlen P (count - 1)) :
    (write_miscdrv_rdwr ctx P count true true).ret = (count : Int) ∧
    (read_miscdrv_rdwr (write_miscdrv_rdwr ctx P count true true).ctx
        count2 true).ret = (strnlen P (count - 1) : Int) ∧
    (read_miscdrv_rdwr (write_miscdrv_rdwr ctx P count true true).ctx
        count2 true).delivered = P.take (strnlen P (count - 1)) ∧
    (read_miscdrv_rdwr (write_miscdrv_rdwr ctx P count true true).ctx
        count2 true).ctx.tx = ctx.tx + (strnlen P (count - 1) : Int) := by
  have hcc : ¬ MAXBYTES < count := by omega
  have hkbuf : P.takeD count 0 = P := by
    rw [List.takeD_eq_take 0 (by omega : count ≤ P.length), ← hP,
      List.take_length]
  have hW : write_miscdrv_rdwr ctx P count true true =
      { ret := (count : Int),
        ctx := { ctx with
          oursecret := P.take (strnlen P (count - 1)) ++
            0 :: ctx.oursecret.drop (strnlen P (count - 1) + 1),
          rx := ctx.rx + (count : Int) },
        allocated := true, freed := true } := by
    unfold write_miscdrv_rdwr
    rw [if_neg hcc, if_neg (by simp), if_neg (by simp), hkbuf, if_neg hcc]
    rw [strlcpyEffect_pos ctx.oursecret P count (by omega)]
  have htl : (P.take (strnlen P (count - 1))).length = strnlen P (count - 1) := by
    have := strnlen_le_length P (count - 1)
    simp only [List.length_take]
    omega
  have hsl : strnlen (P.take (strnlen P (count - 1)) ++
      0 :: ctx.oursecret.drop (strnlen P (count - 1) + 1)) MAXBYTES
      = strnlen P (count - 1) := by
    refine (strnlen_append_nul_eq _ _ MAXBYTES
      (mem_take_strnlen P (count - 1)) ?_).trans htl
    rw [htl]
    have := strnlen_le_maxlen P (count - 1)
    omega
  have htake : (P.take (strnlen P (count - 1)) ++
      0 :: ctx.oursecret.drop (strnlen P (count - 1) + 1)).take
        (strnlen P (count - 1)) = P.take (strnlen P (count - 1)) :=
    take_append_of_length _ _ _ htl
  rw [hW]
  unfold read_miscdrv_rdwr
  simp only
  rw [if_neg (by omega : ¬ count2 < MAXBYTES), hsl,
    if_neg (by omega : ¬ strnlen P (count - 1) = 0), if_neg (by simp), htake]
  simp

/-- C2 amended witness: Write of hello with count 5 then Read with count
128 returns the four bytes hell and leaves tx at 4. -/
theorem C2_roundtrip_truncated_witness :
    ([104, 101, 108, 108, 111] : List Nat).length = 5 ∧ 1 ≤ 5 ∧
    5 ≤ MAXBYTES ∧ MAXBYTES ≤ 128 ∧ 0 < strnlen [104, 101, 108, 108, 111] 4 ∧
    ((write_miscdrv_rdwr miscdrv_init_ctx [104, 101, 108, 108, 111] 5
        true true).ret = ((5 : Nat) : Int) ∧
     (read_miscdrv_rdwr (write_miscdrv_rdwr miscdrv_init_ctx
        [104, 101, 108, 108, 111] 5 true true).ctx 128 true).ret
        = (strnlen [104, 101, 108, 108, 111] (5 - 1) : Int) ∧
     (read_miscdrv_rdwr (write_miscdrv_rdwr miscdrv_init_ctx
        [104, 101, 108, 108, 111] 5 true true).ctx 128 true).delivered
        = ([104, 101, 108, 108, 111] : List Nat).take
            (strnlen [104, 101, 108, 108, 111] (5 - 1)) ∧
     (read_miscdrv_rdwr (write_miscdrv_rdwr miscdrv_init_ctx
        [104, 101, 108, 108, 111] 5 true true).ctx 128 true).ctx.tx
        = miscdrv_init_ctx.tx
          + (strnlen [104, 101, 108, 108, 111] (5 - 1) : Int)) :=
  ⟨by decide, by decide, by decide, by decide, by decide,
   C2_roundtrip_truncated miscdrv_init_ctx [104, 101, 108, 108, 111] 5 128
     (by decide) (by decide) (by decide) (by decide) (by decide)⟩

/-- C3 counterexample: right after Attach, a Write with count 0 succeeds
returning 0, but the secret is completely unchanged, its logical length is
still 7, and the subsequent Read succeeds returning 7 rather than failing
with InvalidArgument. -/
theorem C3_write_zero_counterexample :
    (write_miscdrv_rdwr miscdrv_init_ctx [] 0 true true).ret = 0 ∧
    (write_miscdrv_rdwr miscdrv_init_ctx [] 0 true true).ctx
      = miscdrv_init_ctx ∧
    strnlen (write_miscdrv_rdwr miscdrv_init_ctx [] 0 true true).ctx.oursecret
      MAXBYTES = 7 ∧
    (read_miscdrv_rdwr (write_miscdrv_rdwr miscdrv_init_ctx [] 0 true
      true).ctx MAXBYTES true).ret = 7 := by
  decide

/-- C3 amended: a Write with count 0 succeeds returning 0 and leaves the
whole context, the stored secret included, unchanged: strlcpy with size 0
writes nothing, so the secret keeps its previous value and a subsequent
Read behaves exactly as before the Write. -/
theorem C3_write_zero_noop (ctx : drv_ctx) (ubuf : List Nat) :
    write_miscdrv_rdwr ctx ubuf 0 true true =
      { ret := 0, ctx := ctx, allocated := true, freed := true } := by
  unfold write_miscdrv_rdwr
  rw [if_neg (by simp [MAXBYTES]), if_neg (by simp), if_neg (by simp)]
  simp [strlcpyEffect]

/-- C4: a Read with count at least MAXBYTES on a context with a non-empty
secret and a successful boundary copy returns exactly secret_len, delivers
the first secret_len bytes of the stored secret, and adds secret_len to
tx. -/
theorem C4_read_success (ctx : drv_ctx) (count : Nat)
    (h1 : MAXBYTES ≤ count) (h2 : 0 < strnlen ctx.oursecret MAXBYTES) :
    read_miscdrv_rdwr ctx count true =
      { ret := (strnlen ctx.oursecret MAXBYTES : Int),
        ctx := { ctx with
                 tx := ctx.tx + (strnlen ctx.oursecret MAXBYTES : Int) },
        delivered := ctx.oursecret.take (strnlen ctx.oursecret MAXBYTES) } := by
  unfold read_miscdrv_rdwr
  rw [if_neg (by omega), if_neg (by omega), if_neg (by simp)]

/-- C4 witness: the first Read after Attach with count 128 returns 7 bytes
and moves tx to 7. -/
theorem C4_read_success_witness :
    MAXBYTES ≤ 128 ∧ 0 < strnlen miscdrv_init_ctx.oursecret MAXBYTES ∧
    read_miscdrv_rdwr miscdrv_init_ctx 128 true =
      { ret := (strnlen miscdrv_init_ctx.oursecret MAXBYTES : Int),
        ctx := { miscdrv_init_ctx with
                 tx := miscdrv_init_ctx.tx
                   + (strnlen miscdrv_init_ctx.oursecret MAXBYTES : Int) },
        delivered := miscdrv_init_ctx.oursecret.take
          (strnlen miscdrv_init_ctx.oursecret MAXBYTES) } :=
  ⟨by decide, by decide, C4_read_success miscdrv_init_ctx 128 (by decide) (by decide)⟩

/-- C5: a Read with count below MAXBYTES fails with -EINVAL, delivers no
bytes, and returns the context unchanged, whatever the copy oracle says. -/
theorem C5_read_small_count (ctx : drv_ctx) (count : Nat) (ok : Bool)
    (h : count < MAXBYTES) :
    read_miscdrv_rdwr ctx count ok =
      { ret := -EINVAL, ctx := ctx, delivered := [] } := by
  unfold read_miscdrv_rdwr
  rw [if_pos h]

/-- C5 witness: a Read with count 5 right after Attach fails with -EINVAL
and changes nothing. -/
theorem C5_read_small_count_witness :
    5 < MAXBYTES ∧
    read_miscdrv_rdwr miscdrv_init_ctx 5 true =
      { ret := -EINVAL, ctx := miscdrv_init_ctx, delivered := [] } :=
  ⟨by decide, C5_read_small_count miscdrv_init_ctx 5 true (by decide)⟩

/-- C6: a Write within the size limit whose copy_from_user fails returns
-EFAULT, frees the staging buffer it allocated, and leaves the whole
context, secret and counters included, unmodified. -/
theorem C6_write_copyin_fault_atomic (ctx : drv_ctx) (ubuf : List Nat)
    (count : Nat) (h : count ≤ MAXBYTES) :
    write_miscdrv_rdwr ctx ubuf count true false =
      { ret := -EFAULT, ctx := ctx, allocated := true, freed := true } := by
  unfold write_miscdrv_rdwr
  rw [if_neg (by omega), if_neg (by simp), if_pos rfl]

/-- C6 witness: a Write of 5 bytes whose copy-in faults leaves the freshly
initialised context untouched and reports -EFAULT. -/
theorem C6_write_copyin_fault_atomic_witness :
    5 ≤ MAXBYTES ∧
    write_miscdrv_rdwr miscdrv_init_ctx [104, 101, 108, 108, 111] 5
        true false =
      { ret := -EFAULT, ctx := miscdrv_init_ctx,
        allocated := true, freed := true } :=
  ⟨by decide,
   C6_write_copyin_fault_atomic miscdrv_init_ctx [104, 101, 108, 108, 111] 5
     (by decide)⟩

/-- C7: a successful Write of count bytes, count at most MAXBYTES, returns
count and adds exactly count to rx, the originally requested length even
when the stored value is truncated; tx is untouched. -/
theorem C7_write_success_stats (ctx : drv_ctx) (ubuf : List Nat)
    (count : Nat) (h : count ≤ MAXBYTES) :
    (write_miscdrv_rdwr ctx ubuf count true true).ret = (count : Int) ∧
    (write_miscdrv_rdwr ctx ubuf count true true).ctx.rx
      = ctx.rx + (count : Int) ∧
    (write_miscdrv_rdwr ctx ubuf count true true).ctx.tx = ctx.tx := by
  unfold write_miscdrv_rdwr
  rw [if_neg (by omega), if_neg (by simp), if_neg (by simp)]
  exact ⟨rfl, rfl, rfl⟩

/-- C7 witness: the Write of hello with count 5 returns 5 and adds 5 to rx
even though only 4 bytes are committed to the secret. -/
theorem C7_write_success_stats_witness :
    5 ≤ MAXBYTES ∧
    ((write_miscdrv_rdwr miscdrv_init_ctx [104, 101, 108, 108, 111] 5
        true true).ret = ((5 : Nat) : Int) ∧
     (write_miscdrv_rdwr miscdrv_init_ctx [104, 101, 108, 108, 111] 5
        true true).ctx.rx = miscdrv_init_ctx.rx + ((5 : Nat) : Int) ∧
     (write_miscdrv_rdwr miscdrv_init_ctx [104, 101, 108, 108, 111] 5
        true true).ctx.tx = miscdrv_init_ctx.tx) :=
  ⟨by decide,
   C7_write_success_stats miscdrv_init_ctx [104, 101, 108, 108, 111] 5
     (by decide)⟩

/-- C8: after Attach every counter and config word of the context is zero,
the secret buffer is the seven bytes of initmsg, a terminator, and 120
zeroed bytes, and the first Read with count 128 returns exactly 7 bytes
equal to initmsg, leaving tx at 7. -/
theorem C8_attach_then_first_read :
    miscdrv_init_ctx.tx = 0 ∧ miscdrv_init_ctx.rx = 0 ∧
    miscdrv_init_ctx.err = 0 ∧ miscdrv_init_ctx.myword = 0 ∧
    miscdrv_init_ctx.config1 = 0 ∧ miscdrv_init_ctx.config2 = 0 ∧
    miscdrv_init_ctx.config3 = 0 ∧
    miscdrv_init_ctx.oursecret = initmsg ++ 0 :: List.replicate 120 0 ∧
    read_miscdrv_rdwr miscdrv_init_ctx 128 true =
      { ret := 7, ctx := { miscdrv_init_ctx with tx := 7 },
        delivered := initmsg } := by
  decide

/-- C9: no driver method invocation, successful or failing, ever decreases
tx or rx: open and close do not touch the context, read only ever adds
secret_len to tx, write only ever adds count to rx. -/
theorem C9_counters_monotone (s : DriverState) (op : Op) :
    s.ctx.tx ≤ (step s op).ctx.tx ∧ s.ctx.rx ≤ (step s op).ctx.rx := by
  cases op with
  | doOpen => exact ⟨le_refl _, le_refl _⟩
  | doClose => exact ⟨le_refl _, le_refl _⟩
  | doRead count ok => exact read_stats_mono s.ctx count ok
  | doWrite ubuf count aOk cOk => exact write_stats_mono s.ctx ubuf count aOk cOk

/-- C10: in every state reachable from Attach through any sequence of
driver method invocations, the secret buffer contains a NUL terminator
strictly inside its 128-byte capacity, its logical length is at most 127,
and a Read transfers at most 127 bytes and never returns more than 127. -/
theorem C10_secret_always_terminated (s : DriverState) (h : Reachable s) :
    (∃ a b, s.ctx.oursecret = a ++ 0 :: b ∧ a.length ≤ MAXBYTES - 1) ∧
    strnlen s.ctx.oursecret MAXBYTES ≤ MAXBYTES - 1 ∧
    (∀ count ok,
      (read_miscdrv_rdwr s.ctx count ok).delivered.length ≤ MAXBYTES - 1) ∧
    (∀ count ok,
      (read_miscdrv_rdwr s.ctx count ok).ret ≤ ((MAXBYTES : Int) - 1)) := by
  obtain ⟨hlen, hstr⟩ := reachable_secretWF s h
  have hstr2 : strnlen s.ctx.oursecret MAXBYTES < MAXBYTES := by
    simp only [MAXBYTES] at hstr ⊢
    omega
  refine ⟨?_, hstr, ?_, ?_⟩
  · have hstr3 : strnlen s.ctx.oursecret MAXBYTES < s.ctx.oursecret.length := by
      omega
    obtain ⟨a, b, hab, halen⟩ :=
      strnlen_lt_decomp s.ctx.oursecret MAXBYTES hstr2 hstr3
    exact ⟨a, b, hab, by omega⟩
  · intro count ok
    unfold read_miscdrv_rdwr
    split
    · simp
    · split
      · simp
      · split
        · simp
        · simp only [List.length_take]
          omega
  · intro count ok
    unfold read_miscdrv_rdwr
    split
    · simp only [EINVAL, MAXBYTES]
      omega
    · split
      · simp only [EINVAL, MAXBYTES]
        omega
      · split
        · simp only [EFAULT, MAXBYTES]
          omega
        · simp only [MAXBYTES] at hstr ⊢
          omega

/-- C10 witness: the invariant instantiated at the post-Attach state, with
a Read of 128 bytes. -/
theorem C10_secret_always_terminated_witness :
    strnlen initState.ctx.oursecret MAXBYTES ≤ MAXBYTES - 1 ∧
    (read_miscdrv_rdwr initState.ctx 128 true).delivered.length
      ≤ MAXBYTES - 1 ∧
    (read_miscdrv_rdwr initState.ctx 128 true).ret ≤ ((MAXBYTES : Int) - 1) :=
  ⟨(C10_secret_always_terminated initState Reachable.init).2.1,
   (C10_secret_always_terminated initState Reachable.init).2.2.1 128 true,
   (C10_secret_always_terminated initState Reachable.init).2.2.2 128 true⟩
